import Mathlib

/-
Verification of the rediver-sdk core (pkg/core/exec.go): a shallow embedding
of the scanner execution harness and the finding-normalization primitives
(fingerprints, CVSS selection, severity mapping, package-type detection),
with theorems settling the specified properties.

Conventions of the embedding:
* Bytes are `Nat` values below 256; 32-bit machine words are `Nat` reduced
  modulo 2^32 (`w32`).
* Go `float64` CVSS scores are modelled as exact rationals; every comparison
  appearing in the code (`>= 9.0`, `> 0`, ...) has the same outcome on the
  rational model at all inputs considered here.
* Go strings are Lean `String`s; `[]byte(s)` is the UTF-8 encoding
  (`strBytes`), which matches Go's string-to-bytes conversion.
* Potentially-failing Go functions returning `(*T, error)` are modelled as
  `Except String T`.
-/

/-! ### 32-bit word arithmetic (crypto/sha256 primitives) -/

/-- Truncate to a 32-bit word, the implicit wrap-around of Go `uint32`. -/
def w32 (n : Nat) : Nat := n % 4294967296

/-- 32-bit rotate right. -/
def rotr32 (n x : Nat) : Nat := w32 ((x >>> n) ||| (x <<< (32 - n)))

/-- SHA-256 Ch(x,y,z) = (x ∧ y) ⊕ (¬x ∧ z), complement taken in 32 bits. -/
def shaCh (x y z : Nat) : Nat := (x &&& y) ^^^ ((x ^^^ 4294967295) &&& z)

/-- SHA-256 Maj(x,y,z). -/
def shaMaj (x y z : Nat) : Nat := (x &&& y) ^^^ (x &&& z) ^^^ (y &&& z)

/-- SHA-256 Σ0. -/
def bigSigma0 (x : Nat) : Nat := rotr32 2 x ^^^ rotr32 13 x ^^^ rotr32 22 x

/-- SHA-256 Σ1. -/
def bigSigma1 (x : Nat) : Nat := rotr32 6 x ^^^ rotr32 11 x ^^^ rotr32 25 x

/-- SHA-256 σ0. -/
def smallSigma0 (x : Nat) : Nat := rotr32 7 x ^^^ rotr32 18 x ^^^ (x >>> 3)

/-- SHA-256 σ1. -/
def smallSigma1 (x : Nat) : Nat := rotr32 17 x ^^^ rotr32 19 x ^^^ (x >>> 10)

/-- The 64 SHA-256 round constants of FIPS 180-4, written in decimal
(0x428a2f98, 0x71374491, ..., 0xc67178f2). -/
def sha256K : List Nat :=
  [1116352408, 1899447441, 3049323471, 3921009573, 961987163, 1508970993,
   2453635748, 2870763221, 3624381080, 310598401, 607225278, 1426881987,
   1925078388, 2162078206, 2614888103, 3248222580, 3835390401, 4022224774,
   264347078, 604807628, 770255983, 1249150122, 1555081692, 1996064986,
   2554220882, 2821834349, 2952996808, 3210313671, 3336571891, 3584528711,
   113926993, 338241895, 666307205, 773529912, 1294757372, 1396182291,
   1695183700, 1986661051, 2177026350, 2456956037, 2730485921, 2820302411,
   3259730800, 3345764771, 3516065817, 3600352804, 4094571909, 275423344,
   430227734, 506948616, 659060556, 883997877, 958139571, 1322822218,
   1537002063, 1747873779, 1955562222, 2024104815, 2227730452, 2361852424,
   2428436474, 2756734187, 3204031479, 3329325298]

/-- Big-endian 8-byte encoding of a natural number (the SHA-256 length field). -/
def bytesBE8 (n : Nat) : List Nat :=
  [(n >>> 56) % 256, (n >>> 48) % 256, (n >>> 40) % 256, (n >>> 32) % 256,
   (n >>> 24) % 256, (n >>> 16) % 256, (n >>> 8) % 256, n % 256]

/-- SHA-256 padding: append 0x80, zero bytes to 56 mod 64, then the bit length. -/
def sha256Pad (msg : List Nat) : List Nat :=
  msg ++ [0x80] ++ List.replicate ((119 - msg.length % 64) % 64) 0
      ++ bytesBE8 (msg.length * 8)

/-- Group bytes into big-endian 32-bit words. -/
def toWords32 : List Nat → List Nat
  | b0 :: b1 :: b2 :: b3 :: rest =>
      ((b0 <<< 24) ||| (b1 <<< 16) ||| (b2 <<< 8) ||| b3) :: toWords32 rest
  | _ => []

/-- Extend the 16 message words to the full 64-word schedule (n extension steps). -/
def extendSchedule : Nat → List Nat → List Nat
  | 0, ws => ws
  | n + 1, ws =>
    let t := ws.length
    let next := w32 (smallSigma1 (ws.getD (t - 2) 0) + ws.getD (t - 7) 0 +
                     smallSigma0 (ws.getD (t - 15) 0) + ws.getD (t - 16) 0)
    extendSchedule n (ws ++ [next])

/-- The eight 32-bit working variables of SHA-256. -/
structure SHAState where
  a : Nat
  b : Nat
  c : Nat
  d : Nat
  e : Nat
  f : Nat
  g : Nat
  h : Nat

/-- Initial SHA-256 hash value of FIPS 180-4 (0x6a09e667 ... 0x5be0cd19),
written in decimal. -/
def sha256H0 : SHAState :=
  { a := 1779033703, b := 3144134277, c := 1013904242, d := 2773480762,
    e := 1359893119, f := 2600822924, g := 528734635, h := 1541459225 }

/-- One SHA-256 compression round, taking the pair (round constant, schedule word). -/
def compressStep (st : SHAState) (kw : Nat × Nat) : SHAState :=
  let t1 := w32 (st.h + bigSigma1 st.e + shaCh st.e st.f st.g + kw.1 + kw.2)
  let t2 := w32 (bigSigma0 st.a + shaMaj st.a st.b st.c)
  { a := w32 (t1 + t2), b := st.a, c := st.b, d := st.c,
    e := w32 (st.d + t1), f := st.e, g := st.f, h := st.g }

/-- Compress one 64-byte block into the running hash state. -/
def compressBlock (hs : SHAState) (block : List Nat) : SHAState :=
  let ws := extendSchedule 48 (toWords32 block)
  let st := (sha256K.zip ws).foldl compressStep hs
  { a := w32 (hs.a + st.a), b := w32 (hs.b + st.b), c := w32 (hs.c + st.c),
    d := w32 (hs.d + st.d), e := w32 (hs.e + st.e), f := w32 (hs.f + st.f),
    g := w32 (hs.g + st.g), h := w32 (hs.h + st.h) }

/-- Split a byte list into 64-byte chunks; the fuel argument (any bound at least
the list length) makes the recursion structural so that it reduces in the kernel. -/
def chunks64F : Nat → List Nat → List (List Nat)
  | _, [] => []
  | 0, l => [l]
  | fuel + 1, l@(_ :: _) => l.take 64 :: chunks64F fuel (l.drop 64)

/-- Big-endian bytes of a 32-bit word. -/
def wordBytes (w : Nat) : List Nat :=
  [(w >>> 24) % 256, (w >>> 16) % 256, (w >>> 8) % 256, w % 256]

/-- Serialize the final hash state, big-endian. -/
def stateBytes (st : SHAState) : List Nat :=
  wordBytes st.a ++ wordBytes st.b ++ wordBytes st.c ++ wordBytes st.d ++
  wordBytes st.e ++ wordBytes st.f ++ wordBytes st.g ++ wordBytes st.h

/-- SHA-256 of a byte sequence (the model of Go's `crypto/sha256.Sum256`). -/
def sha256 (msg : List Nat) : List Nat :=
  let padded := sha256Pad msg
  stateBytes ((chunks64F padded.length padded).foldl compressBlock sha256H0)

/-! ### Hex encoding and string bytes -/

/-- The lowercase hex alphabet of Go's `encoding/hex`
(`hextable = "0123456789abcdef"`). -/
def hexChars : List Char := "0123456789abcdef".data

/-- Two hex characters of one byte, indexed as Go's `hextable[b>>4]`, `hextable[b&0x0f]`. -/
def hexOfByte (b : Nat) : List Char :=
  [hexChars.getD (b >>> 4) '0', hexChars.getD (b &&& 15) '0']

/-- Hex-encode a byte list (Go's `hex.EncodeToString`). -/
def hexEncode : List Nat → List Char
  | [] => []
  | b :: rest => hexOfByte b ++ hexEncode rest

/-- UTF-8 bytes of one character, as Go encodes string runes to bytes. -/
def utf8Bytes (c : Char) : List Nat :=
  let n := c.toNat
  if n < 0x80 then [n]
  else if n < 0x800 then
    [0xC0 ||| (n >>> 6), 0x80 ||| (n &&& 0x3F)]
  else if n < 0x10000 then
    [0xE0 ||| (n >>> 12), 0x80 ||| ((n >>> 6) &&& 0x3F), 0x80 ||| (n &&& 0x3F)]
  else
    [0xF0 ||| (n >>> 18), 0x80 ||| ((n >>> 12) &&& 0x3F),
     0x80 ||| ((n >>> 6) &&& 0x3F), 0x80 ||| (n &&& 0x3F)]

/-- The byte content of a Go string (`[]byte(s)`): UTF-8. -/
def strBytes (s : String) : List Nat := s.data.flatMap utf8Bytes

/-! ### Fingerprint generation (exec.go, fingerprint section) -/

/-- `hashString`: hex-encoded SHA-256 of a string (`sha256.Sum256` + `hex.EncodeToString`). -/
def hashString (s : String) : String := ⟨hexEncode (sha256 (strBytes s))⟩

/-- First `n` characters of a string; the model of Go's slicing `s[:n]` on the
ASCII hex strings it is applied to (one byte per character). -/
def takeChars (n : Nat) (s : String) : String := ⟨s.data.take n⟩

/-- `GenerateSastFingerprint`: sha256(file:ruleID:startLine); `%d` of a Go `int`
is decimal with a leading minus for negatives, as `toString : Int → String`. -/
def GenerateSastFingerprint (file ruleID : String) (startLine : Int) : String :=
  hashString (file ++ ":" ++ ruleID ++ ":" ++ toString startLine)

/-- `GenerateScaFingerprint`: sha256(pkgName:pkgVersion:vulnID). -/
def GenerateScaFingerprint (pkgName pkgVersion vulnID : String) : String :=
  hashString (pkgName ++ ":" ++ pkgVersion ++ ":" ++ vulnID)

/-- `GenerateSecretFingerprint`: sha256(file:ruleID:startLine:secretHash) with
secretHash the first 8 characters of sha256(secretValue). -/
def GenerateSecretFingerprint (file ruleID : String) (startLine : Int)
    (secretValue : String) : String :=
  let secretHash := takeChars 8 (hashString secretValue)
  hashString (file ++ ":" ++ ruleID ++ ":" ++ toString startLine ++ ":" ++ secretHash)

/-! ### CVSS score handling (exec.go, CVSS section) -/

/-- `CVSSSource`: the fixed enumeration of advisory sources. -/
inductive CVSSSource where
  | nvd
  | ghsa
  | redhat
  | bitnami

deriving instance DecidableEq, Repr for CVSSSource

/-- `CVSSData`: one source's CVSS record. Go `float64` scores are modelled as
exact rationals; the code only compares scores with `> 0`. -/
structure CVSSData where
  Source : CVSSSource
  Score : Rat
  Vector : String

deriving instance DecidableEq, Repr for CVSSData

/-- A Go `map[CVSSSource]CVSSData`: each source has at most one record. -/
def CVSSMap := CVSSSource → Option CVSSData

/-- `CVSSPriority`: fixed priority order, most authoritative first. -/
def CVSSPriority : List CVSSSource :=
  [CVSSSource.nvd, CVSSSource.ghsa, CVSSSource.redhat, CVSSSource.bitnami]

/-- The `for _, source := range CVSSPriority` loop body of `SelectBestCVSS`. -/
def selectLoop : List CVSSSource → CVSSMap → Option CVSSData
  | [], _ => none
  | s :: rest, m =>
    match m s with
    | some data => if data.Score > 0 then some data else selectLoop rest m
    | none => selectLoop rest m

/-- `SelectBestCVSS`: first record in priority order whose score is positive. -/
def SelectBestCVSS (cvssMap : CVSSMap) : Option CVSSData :=
  selectLoop CVSSPriority cvssMap

/-! ### Severity mapping (exec.go, severity section) -/

/-- `SeverityFromCVSS`: CVSS score to severity level. -/
def SeverityFromCVSS (score : Rat) : String :=
  if score ≥ 9 then "critical"
  else if score ≥ 7 then "high"
  else if score ≥ 4 then "medium"
  else if score > 0 then "low"
  else "info"

/-- The whitespace class of Go's `unicode.IsSpace` (what `strings.TrimSpace`
trims): tab, newline, vertical tab, form feed, carriage return (code points
9 through 13), space, next line (0x85), no-break space (0xA0), ogham space
mark (0x1680), the range 0x2000 to 0x200A, line and paragraph separator
(0x2028, 0x2029), narrow no-break space (0x202F), medium mathematical space
(0x205F), and ideographic space (0x3000). -/
def goIsSpace (c : Char) : Bool :=
  [9, 10, 11, 12, 13, 32, 0x85, 0xA0, 0x1680, 0x2028, 0x2029, 0x202F, 0x205F,
    0x3000].contains c.toNat || (0x2000 ≤ c.toNat && c.toNat ≤ 0x200A)

/-- `strings.TrimSpace`: drop leading and trailing whitespace. -/
def goTrimSpace (s : String) : String :=
  ⟨((s.data.dropWhile goIsSpace).reverse.dropWhile goIsSpace).reverse⟩

/-- One character of Go's `strings.ToUpper` (the Unicode simple uppercase
mapping): the ASCII range is mapped exactly, together with the only two
Unicode code points whose simple uppercase lands in ASCII — dotless i
(U+0131 to I) and long s (U+017F to S). Every other character is left
unchanged here; under Go's mapping its image is likewise outside ASCII, so
on either side it differs from every character of the code's ASCII keyword
vocabulary, and every comparison `NormalizeSeverity` performs — hence
`NormalizeSeverity` itself — agrees with the Go function on all inputs. -/
def goToUpperChar (c : Char) : Char :=
  if c.toNat = 0x131 then 'I'
  else if c.toNat = 0x17F then 'S'
  else c.toUpper

/-- `strings.ToUpper`, applied rune-by-rune. -/
def goToUpper (s : String) : String := ⟨s.data.map goToUpperChar⟩

/-- One character of Go's `strings.ToLower` (the Unicode simple lowercase
mapping): the ASCII range exactly, together with the only two code points
whose simple lowercase lands in ASCII — capital dotted I (U+0130 to i) and
the Kelvin sign (U+212A to k). All other characters keep a non-ASCII image
under Go's mapping and are left unchanged here, which no comparison against
the code's ASCII manifest markers can distinguish. -/
def goToLowerChar (c : Char) : Char :=
  if c.toNat = 0x130 then 'i'
  else if c.toNat = 0x212A then 'k'
  else c.toLower

/-- `strings.ToLower`, applied rune-by-rune. -/
def goToLower (s : String) : String := ⟨s.data.map goToLowerChar⟩

/-- `NormalizeSeverity`: normalize scanner severity labels (the Go `switch` on
the trimmed, uppercased input). -/
def NormalizeSeverity (severity : String) : String :=
  let u := goToUpper (goTrimSpace severity)
  if u = "CRITICAL" then "critical"
  else if u = "HIGH" ∨ u = "ERROR" then "high"
  else if u = "MEDIUM" ∨ u = "MODERATE" ∨ u = "WARNING" then "medium"
  else if u = "LOW" then "low"
  else if u = "INFO" ∨ u = "INFORMATIONAL" ∨ u = "NOTE" then "info"
  else "info"

/-! ### Package type detection (exec.go, package-type section) -/

/-- `PackageType`: Go `type PackageType string`. -/
abbrev PackageType := String

/-- Canonical identifier for the Maven ecosystem. -/
def PackageTypeMaven : PackageType := "maven"

/-- Canonical identifier for the npm ecosystem. -/
def PackageTypeNPM : PackageType := "npm"

/-- Canonical identifier for the PyPI ecosystem. -/
def PackageTypePyPI : PackageType := "pip"

/-- Canonical identifier for the Go modules ecosystem. -/
def PackageTypeGo : PackageType := "gomod"

/-- Canonical identifier for the Cargo ecosystem. -/
def PackageTypeCargo : PackageType := "cargo"

/-- Canonical identifier for the NuGet ecosystem. -/
def PackageTypeNuGet : PackageType := "nuget"

/-- Canonical identifier for the RubyGems ecosystem. -/
def PackageTypeGem : PackageType := "gem"

/-- Canonical identifier for the Composer ecosystem. -/
def PackageTypeComposer : PackageType := "composer"

/-- Substring test on character lists: `sub` occurs somewhere in the list. -/
def hasSub (sub : List Char) : List Char → Bool
  | [] => sub.isEmpty
  | l@(_ :: t) => sub.isPrefixOf l || hasSub sub t

/-- `strings.Contains s sub`. -/
def goContains (s sub : String) : Bool := hasSub sub.data s.data

/-- `DetectPackageType`: case-insensitive substring match of known manifest names. -/
def DetectPackageType (filename : String) : PackageType :=
  let lower := goToLower filename
  if goContains lower "pom.xml" || goContains lower ".pom" then PackageTypeMaven
  else if goContains lower "package.json" || goContains lower "package-lock.json" ||
      goContains lower "yarn.lock" then PackageTypeNPM
  else if goContains lower "requirements.txt" || goContains lower "setup.py" ||
      goContains lower "pipfile" || goContains lower "pyproject.toml" then PackageTypePyPI
  else if goContains lower "go.mod" || goContains lower "go.sum" then PackageTypeGo
  else if goContains lower "cargo.toml" || goContains lower "cargo.lock" then PackageTypeCargo
  else if goContains lower ".csproj" || goContains lower "packages.config" ||
      goContains lower ".nuspec" then PackageTypeNuGet
  else if goContains lower "gemfile" || goContains lower ".gemspec" then PackageTypeGem
  else if goContains lower "composer.json" || goContains lower "composer.lock" then
    PackageTypeComposer
  else ""

/-! ### Stream capture (exec.go, captureOutput / streamWithHandler)

A pipe is modelled by the byte sequence the child delivered before the
terminal condition (end-of-stream, or an I/O error such as pipe closure);
the code treats both terminals identically (`if err != nil { break }`), so
the terminal kind does not appear in the model. -/

/-- One `bufio.Reader.ReadBytes('\n')` call on the remaining pipe content:
the bytes up to and including the first newline and the rest, or, when no
newline remains, all remaining bytes together with the terminal condition
(`none`, Go's non-nil error return). -/
def splitFirst : List Nat → List Nat × Option (List Nat)
  | [] => ([], none)
  | b :: bs =>
    if b == 10 then ([b], some bs)
    else
      let p := splitFirst bs
      (b :: p.1, p.2)

/-- The read loop of `captureOutput`: append each returned line (when nonempty)
to the buffer, stop at the terminal condition. Fuel (any bound above the
remaining byte count) makes the recursion structural. -/
def captureLoopF : Nat → List Nat → List Nat → List Nat
  | 0, buf, _ => buf
  | fuel + 1, buf, d =>
    match splitFirst d with
    | (line, some rest) => captureLoopF fuel (if line.isEmpty then buf else buf ++ line) rest
    | (line, none) => if line.isEmpty then buf else buf ++ line

/-- `captureOutput`: read a pipe to its end, accumulating all bytes; the
`stream` flag only echoes lines to the console and the `pfx` label tags that
echo, neither affects the returned buffer. -/
def captureOutput (data : List Nat) (stream : Bool) (pfx : String) : List Nat :=
  captureLoopF (data.length + 1) [] data

/-- One `bufio.ScanLines` split step: the bytes strictly before the first
newline and the rest after it, or all bytes with `none` when no newline
remains (the final token at end-of-stream). -/
def splitBefore : List Nat → List Nat × Option (List Nat)
  | [] => ([], none)
  | b :: bs =>
    if b == 10 then ([], some bs)
    else
      let p := splitBefore bs
      (b :: p.1, p.2)

/-- `dropCR` of `bufio.ScanLines`: drop one trailing carriage return. -/
def dropCR (l : List Nat) : List Nat :=
  if l.getLast? == some 13 then l.dropLast else l

/-- `bufio.MaxScanTokenSize`: the default cap on one scanner token (64 KiB). -/
def maxScanTokenSize : Nat := 65536

/-- The token sequence produced by `bufio.Scanner` with `ScanLines` at the
default buffer size: lines without their terminators, a trailing `\r`
dropped, the final unterminated line included, no empty token after a
trailing newline. A line whose terminator does not appear within the first
`maxScanTokenSize` bytes — that is, whose pre-terminator length reaches the
cap (on a pipe the buffer fills before end-of-stream is observed, so the
final unterminated line is subject to the same bound) — makes `Scan` return
false with `ErrTooLong`: that line and all subsequent output of the stream
are lost. Fueled to keep the recursion structural. -/
def scanLinesF : Nat → List Nat → List (List Nat)
  | 0, _ => []
  | fuel + 1, d =>
    if d.isEmpty then []
    else
      match splitBefore d with
      | (line, some rest) =>
          if line.length < maxScanTokenSize then dropCR line :: scanLinesF fuel rest
          else []
      | (line, none) =>
          if line.length < maxScanTokenSize then [dropCR line] else []

/-- The lines `streamWithHandler` iterates over for one stream. -/
def scanLines (data : List Nat) : List (List Nat) := scanLinesF (data.length + 1) data

/-- `streamWithHandler`: the loop `for scanner.Scan() { buf = append(buf,
line+"\n"); handler(line, isError) }`; the handler receives exactly
`scanLines data` in order and does not affect the buffer, so the model
returns the accumulated buffer. -/
def streamWithHandler (data : List Nat) : List Nat :=
  (scanLines data).foldl (fun buf line => buf ++ line ++ [10]) []

/-- Split a byte sequence into the lines it contains (separator 10, no
trailing empty segment, no size limit): used both to state what lines a
returned buffer holds and — applied to the raw stream — as the untruncated
line decomposition, the spec's "every line the child wrote". -/
def linesOfBufferF : Nat → List Nat → List (List Nat)
  | 0, _ => []
  | fuel + 1, d =>
    if d.isEmpty then []
    else
      match splitBefore d with
      | (line, some rest) => line :: linesOfBufferF fuel rest
      | (line, none) => [line]

/-- The lines contained in a byte buffer, in order. -/
def linesOfBuffer (buf : List Nat) : List (List Nat) :=
  linesOfBufferF (buf.length + 1) buf

/-! ### Scanner execution harness (exec.go, ExecuteScanner / StreamScanner)

The operating-system interaction of one invocation is modelled by an
`ExecWorld`: whether each pipe could be created, whether the process could be
started, the bytes the child wrote to each stream, how the child ended, the
measured elapsed milliseconds, and the caller's inherited environment. The
two runner functions are translated over that world. -/

/-- `ExecConfig`: scanner execution configuration. `Timeout` is in

nanoseconds (Go `time.Duration`); zero means unbounded. -/
structure ExecConfig where
  Binary : String
  Args : List String
  WorkDir : String
  Env : List (String × String)
  Timeout : Int
  Verbose : Bool

/-- `ExecResult`: exit code, captured output bytes, duration, optional error
(Go `error`, `none` for nil). -/
structure ExecResult where
  ExitCode : Int
  Stdout : List Nat
  Stderr : List Nat
  DurationMs : Int
  Error : Option String

deriving instance DecidableEq, Repr for ExecResult

/-- How the child process of one invocation ended. -/
inductive ChildOutcome where
  | exited (code : Nat)
  | killedByDeadline
  | waitFailure (msg : String)

/-- What `cmd.Wait` returns, as the code distinguishes it: nil, an
`*exec.ExitError`, or some other error. -/
inductive GoWaitErr where
  | ok
  | exitError (code : Int)
  | otherError (msg : String)

/-- os/exec semantics of `cmd.Wait` under `exec.CommandContext`: a clean exit
with status 0 yields nil; a nonzero exit status yields an `*exec.ExitError`
carrying that status; a child killed because the context deadline elapsed
makes `Wait` return the `*exec.ExitError` of the signal-killed process, whose
`ExitCode()` is -1 ("signal: killed") — the context error is reported only
when the process nonetheless exits successfully; `Wait` failures that are not
exit statuses are non-`ExitError` errors. -/
def goWaitErr : ChildOutcome → GoWaitErr
  | .exited 0 => .ok
  | .exited (c + 1) => .exitError (Int.ofNat (c + 1))
  | .killedByDeadline => .exitError (-1)
  | .waitFailure m => .otherError m

/-- The state of one invocation's interaction with the operating system. -/
structure ExecWorld where
  stdoutPipeErr : Option String
  stderrPipeErr : Option String
  startErr : Option String
  stdoutBytes : List Nat
  stderrBytes : List Nat
  outcome : ChildOutcome
  elapsedMs : Int
  inheritedEnv : List (String × String)

/-- The fields of an `exec.Cmd` that the code sets: `Dir` empty means inherit
the caller's working directory, `Env = none` means inherit the caller's
environment (Go `cmd.Env == nil`); when set, later entries override earlier
ones at exec time (Go dedups keeping the last occurrence). -/
structure GoCmd where
  Path : String
  Args : List String
  Dir : String
  Env : Option (List (String × String))

deriving instance DecidableEq, Repr for GoCmd

/-- The command construction of `ExecuteScanner` (exec.go lines 44-57):
working directory set when nonempty; when an override mapping is present the
environment is `cmd.Environ()` (the inherited environment) with the overrides
appended. -/
def buildScannerCmd (cfg : ExecConfig) (w : ExecWorld) : GoCmd :=
  let base : GoCmd := { Path := cfg.Binary, Args := cfg.Args, Dir := "", Env := none }
  let withDir := if cfg.WorkDir ≠ "" then { base with Dir := cfg.WorkDir } else base
  if cfg.Env.length > 0 then { withDir with Env := some (w.inheritedEnv ++ cfg.Env) }
  else withDir

/-- The command construction of `StreamScanner` (exec.go lines 149-153): only
the working directory is set; the code never touches `cmd.Env`, so the
environment override mapping of the configuration is not applied. -/
def buildStreamCmd (cfg : ExecConfig) : GoCmd :=
  let base : GoCmd := { Path := cfg.Binary, Args := cfg.Args, Dir := "", Env := none }
  if cfg.WorkDir ≠ "" then { base with Dir := cfg.WorkDir } else base

/-- The `if err != nil` block after `cmd.Wait()` (exec.go lines 102-108 and
194-200): an `*exec.ExitError` stores its code in `ExitCode`; any other error
goes to the result's `Error` field. -/
def applyWaitErr (base : ExecResult) : GoWaitErr → ExecResult
  | .ok => base
  | .exitError c => { base with ExitCode := c }
  | .otherError m => { base with Error := some m }

/-- `ExecuteScanner`: buffered invocation. Pipe-creation and start failures
return an error and no result; otherwise both streams are drained with
`captureOutput`, the process is waited for, and the result is built. -/
def ExecuteScanner (cfg : ExecConfig) (w : ExecWorld) : Except String ExecResult :=
  let _cmd := buildScannerCmd cfg w
  match w.stdoutPipeErr with
  | some e => .error ("failed to create stdout pipe: " ++ e)
  | none =>
    match w.stderrPipeErr with
    | some e => .error ("failed to create stderr pipe: " ++ e)
    | none =>
      match w.startErr with
      | some e => .error ("failed to start scanner: " ++ e)
      | none =>
        let stdoutBuf := captureOutput w.stdoutBytes cfg.Verbose "stdout"
        let stderrBuf := captureOutput w.stderrBytes cfg.Verbose "stderr"
        let base : ExecResult :=
          { ExitCode := 0, Stdout := stdoutBuf, Stderr := stderrBuf,
            DurationMs := w.elapsedMs, Error := none }
        .ok (applyWaitErr base (goWaitErr w.outcome))

/-- `StreamScanner`: streaming invocation. Identical control flow, but the
streams are drained with `streamWithHandler` and the command is built without
environment overrides. -/
def StreamScanner (cfg : ExecConfig) (w : ExecWorld) : Except String ExecResult :=
  let _cmd := buildStreamCmd cfg
  match w.stdoutPipeErr with
  | some e => .error ("failed to create stdout pipe: " ++ e)
  | none =>
    match w.stderrPipeErr with
    | some e => .error ("failed to create stderr pipe: " ++ e)
    | none =>
      match w.startErr with
      | some e => .error ("failed to start scanner: " ++ e)
      | none =>
        let stdoutBuf := streamWithHandler w.stdoutBytes
        let stderrBuf := streamWithHandler w.stderrBytes
        let base : ExecResult :=
          { ExitCode := 0, Stdout := stdoutBuf, Stderr := stderrBuf,
            DurationMs := w.elapsedMs, Error := none }
        .ok (applyWaitErr base (goWaitErr w.outcome))

/-! ### Helper lemmas: digest shape -/

/-- Hex encoding doubles the length. -/
theorem hexEncode_length (l : List Nat) : (hexEncode l).length = 2 * l.length := by
  induction l with
  | nil => rfl
  | cons b t ih => simp [hexEncode, hexOfByte, ih]; omega

/-- A SHA-256 digest is 32 bytes. -/
theorem sha256_length (msg : List Nat) : (sha256 msg).length = 32 := rfl

/-- `hashString` always returns 64 characters. -/
theorem hashString_length (s : String) : (hashString s).length = 64 := by
  have h1 : (hashString s).length = (hexEncode (sha256 (strBytes s))).length := rfl
  rw [h1, hexEncode_length, sha256_length]

/-- Lookups into the hex alphabet stay inside it (small indices). -/
theorem hexChars_getD_mem_lt :
    ∀ n < 16, hexChars.contains (hexChars.getD n '0') = true := by decide

/-- Lookups into the hex alphabet stay inside it. -/
theorem hexChars_getD_mem (n : Nat) :
    hexChars.contains (hexChars.getD n '0') = true := by
  rcases Nat.lt_or_ge n 16 with h | h
  · exact hexChars_getD_mem_lt n h
  · rw [List.getD_eq_default]
    · decide
    · have h16 : hexChars.length = 16 := rfl
      omega

/-- Every character of a hex encoding is a hex digit. -/
theorem hexEncode_all_hex (l : List Nat) :
    (hexEncode l).all (fun c => hexChars.contains c) = true := by
  induction l with
  | nil => rfl
  | cons b t ih =>
    have h1 : hexEncode (b :: t) = hexOfByte b ++ hexEncode t := rfl
    rw [h1, List.all_append, ih, Bool.and_true]
    show (hexChars.contains (hexChars.getD (b >>> 4) '0')
        && (hexChars.contains (hexChars.getD (b &&& 15) '0') && true)) = true
    rw [hexChars_getD_mem, hexChars_getD_mem]
    rfl

/-- The 8-character secret-hash slice really has 8 characters. -/
theorem takeChars_hashString_length (s : String) :
    (takeChars 8 (hashString s)).length = 8 := by
  have h1 : (takeChars 8 (hashString s)).length = ((hashString s).data.take 8).length := rfl
  have h64 : (hashString s).data.length = 64 := hashString_length s
  rw [h1, List.length_take, h64]
  omega

/-- Claim C5: each fingerprint function is a pure function of its declared
inputs producing a fixed-length (64-character) hex SHA-256 digest of the
canonical string joining its fields with the `:` delimiter; the secret
fingerprint hashes `file:ruleID:startLine:secretDigestPrefix` with the prefix
the first 8 characters of the hex SHA-256 of the raw secret; the final
conjunct checks the SHA-256 model against the standard test vector. -/
theorem c5_fingerprints_canonical (file ruleID : String) (startLine : Int)
    (pkgName pkgVersion vulnID secretValue : String) :
    GenerateSastFingerprint file ruleID startLine
        = hashString (file ++ ":" ++ ruleID ++ ":" ++ toString startLine) ∧
    GenerateScaFingerprint pkgName pkgVersion vulnID
        = hashString (pkgName ++ ":" ++ pkgVersion ++ ":" ++ vulnID) ∧
    GenerateSecretFingerprint file ruleID startLine secretValue
        = hashString (file ++ ":" ++ ruleID ++ ":" ++ toString startLine ++ ":"
            ++ takeChars 8 (hashString secretValue)) ∧
    (takeChars 8 (hashString secretValue)).length = 8 ∧
    (GenerateSastFingerprint file ruleID startLine).length = 64 ∧
    (GenerateScaFingerprint pkgName pkgVersion vulnID).length = 64 ∧
    (GenerateSecretFingerprint file ruleID startLine secretValue).length = 64 ∧
    (GenerateSastFingerprint file ruleID startLine).data.all
        (fun c => hexChars.contains c) = true ∧
    hashString "abc"
        = "ba7816bf8f01cfea414140de5dae2223b00361a396177a9cb410ff61f20015ad" := by
  refine ⟨rfl, rfl, rfl, takeChars_hashString_length _, hashString_length _,
    hashString_length _, hashString_length _, hexEncode_all_hex _, ?_⟩
  set_option maxRecDepth 10000 in decide

/-- Claim C10: joining fingerprint fields with `:` without escaping makes
distinct tuples collide with certainty: both sides hash the same canonical
string `a:b:c:...`. -/
theorem c10_delimiter_collisions :
    GenerateSastFingerprint "a:b" "c" 1 = GenerateSastFingerprint "a" "b:c" 1 ∧
    GenerateScaFingerprint "a:b" "c" "v" = GenerateScaFingerprint "a" "b:c" "v" ∧
    ("a:b", "c") ≠ (("a", "b:c") : String × String) := by
  refine ⟨?_, ?_, by decide⟩
  · exact congrArg hashString (by decide)
  · exact congrArg hashString (by decide)

/-! ### CVSS selection claims -/

/-- A source is usable when present in the mapping with a positive score. -/
def usableB (m : CVSSMap) (s : CVSSSource) : Bool :=
  match m s with
  | some d => decide (d.Score > 0)
  | none => false

/-- The selection loop returns the record of the first usable source. -/
theorem selectLoop_eq_find (l : List CVSSSource) (m : CVSSMap) :
    selectLoop l m = (l.find? (usableB m)).bind m := by
  induction l with
  | nil => rfl
  | cons s t ih =>
    cases hm : m s with
    | none =>
      have hu : usableB m s = false := by simp [usableB, hm]
      have hl : selectLoop (s :: t) m = selectLoop t m := by
        show (match m s with
          | some data => if data.Score > 0 then some data else selectLoop t m
          | none => selectLoop t m) = selectLoop t m
        rw [hm]
      rw [hl, List.find?_cons_of_neg _ (by simp [hu]), ih]
    | some d =>
      have hl : selectLoop (s :: t) m
          = if d.Score > 0 then some d else selectLoop t m := by
        show (match m s with
          | some data => if data.Score > 0 then some data else selectLoop t m
          | none => selectLoop t m) = _
        rw [hm]
      by_cases hs : d.Score > 0
      · have hu : usableB m s = true := by simp [usableB, hm, hs]
        rw [hl, if_pos hs, List.find?_cons_of_pos _ hu]
        simp [hm]
      · have hu : usableB m s = false := by simp [usableB, hm, hs]
        rw [hl, if_neg hs, List.find?_cons_of_neg _ (by simp [hu]), ih]

/-- The GHSA record of the priority-beats-magnitude example. -/
def ghsaRecord : CVSSData :=
  { Source := CVSSSource.ghsa, Score := 5, Vector := "CVSS:3.1/ghsa" }

/-- The RedHat record of the priority-beats-magnitude example. -/
def redhatRecord : CVSSData :=
  { Source := CVSSSource.redhat, Score := 9, Vector := "CVSS:3.1/redhat" }

/-- The mapping {ghsa: 5.0, redhat: 9.0}. -/
def ghsaRedhatMap : CVSSMap := fun s =>
  match s with
  | CVSSSource.ghsa => some ghsaRecord
  | CVSSSource.redhat => some redhatRecord
  | _ => none

/-- The empty mapping. -/
def emptyCvssMap : CVSSMap := fun _ => none

/-- A mapping where every source is present with score 0. -/
def allZeroMap : CVSSMap := fun s => some { Source := s, Score := 0, Vector := "" }

/-- Claim C3: `SelectBestCVSS` returns the record of the first source in the
fixed priority order NVD, GHSA, RedHat, Bitnami whose score is strictly
positive (absent or non-positive sources skipped), returns no record on the
empty mapping or when every present score is non-positive, and on
{ghsa: 5.0, redhat: 9.0} returns the GHSA record with score 5.0. -/
theorem c3_select_best_cvss (m : CVSSMap) :
    SelectBestCVSS m = (CVSSPriority.find? (usableB m)).bind m ∧
    CVSSPriority = [CVSSSource.nvd, CVSSSource.ghsa, CVSSSource.redhat,
      CVSSSource.bitnami] ∧
    SelectBestCVSS ghsaRedhatMap = some ghsaRecord ∧
    ghsaRecord.Source = CVSSSource.ghsa ∧ ghsaRecord.Score = 5 ∧
    SelectBestCVSS emptyCvssMap = none ∧
    SelectBestCVSS allZeroMap = none :=
  ⟨selectLoop_eq_find _ _, rfl, by decide, rfl, rfl, rfl, by decide⟩

/-! ### Severity mapping claims -/

/-- Band characterization of `SeverityFromCVSS`: each canonical level is
returned exactly on its half-open score band. -/
theorem severityBands (s : Rat) :
    (SeverityFromCVSS s = "critical" ↔ 9 ≤ s) ∧
    (SeverityFromCVSS s = "high" ↔ 7 ≤ s ∧ s < 9) ∧
    (SeverityFromCVSS s = "medium" ↔ 4 ≤ s ∧ s < 7) ∧
    (SeverityFromCVSS s = "low" ↔ 0 < s ∧ s < 4) ∧
    (SeverityFromCVSS s = "info" ↔ s ≤ 0) := by
  unfold SeverityFromCVSS
  split_ifs with h1 h2 h3 h4
  · exact ⟨iff_of_true rfl h1,
      iff_of_false (by decide) (fun hc => absurd hc.2 (not_lt.mpr h1)),
      iff_of_false (by decide) (fun hc => by linarith [hc.2]),
      iff_of_false (by decide) (fun hc => by linarith [hc.2]),
      iff_of_false (by decide) (fun hc => by linarith)⟩
  · exact ⟨iff_of_false (by decide) h1,
      iff_of_true rfl ⟨h2, lt_of_not_ge h1⟩,
      iff_of_false (by decide) (fun hc => absurd h2 (not_le.mpr hc.2)),
      iff_of_false (by decide) (fun hc => by linarith [hc.2]),
      iff_of_false (by decide) (fun hc => by linarith)⟩
  · exact ⟨iff_of_false (by decide) h1,
      iff_of_false (by decide) (fun hc => absurd hc.1 h2),
      iff_of_true rfl ⟨h3, lt_of_not_ge h2⟩,
      iff_of_false (by decide) (fun hc => by linarith [hc.2]),
      iff_of_false (by decide) (fun hc => by linarith)⟩
  · exact ⟨iff_of_false (by decide) h1,
      iff_of_false (by decide) (fun hc => absurd hc.1 h2),
      iff_of_false (by decide) (fun hc => absurd hc.1 h3),
      iff_of_true rfl ⟨h4, lt_of_not_ge h3⟩,
      iff_of_false (by decide) (fun hc => by linarith)⟩
  · exact ⟨iff_of_false (by decide) h1,
      iff_of_false (by decide) (fun hc => absurd hc.1 h2),
      iff_of_false (by decide) (fun hc => absurd hc.1 h3),
      iff_of_false (by decide) (fun hc => absurd hc.1 h4),
      iff_of_true rfl (le_of_not_lt h4)⟩

/-- Claim C7: `SeverityFromCVSS` maps every score to exactly one of the five
canonical levels by inclusive lower-bound thresholds (critical ≥ 9, high ≥ 7,
medium ≥ 4, low > 0, else info), with the claimed boundary examples. -/
theorem c7_score_to_severity (s : Rat) :
    (SeverityFromCVSS s = "critical" ↔ 9 ≤ s) ∧
    (SeverityFromCVSS s = "high" ↔ 7 ≤ s ∧ s < 9) ∧
    (SeverityFromCVSS s = "medium" ↔ 4 ≤ s ∧ s < 7) ∧
    (SeverityFromCVSS s = "low" ↔ 0 < s ∧ s < 4) ∧
    (SeverityFromCVSS s = "info" ↔ s ≤ 0) ∧
    SeverityFromCVSS 9 = "critical" ∧
    SeverityFromCVSS (8999/1000) = "high" ∧
    SeverityFromCVSS 7 = "high" ∧
    SeverityFromCVSS (6999/1000) = "medium" ∧
    SeverityFromCVSS 4 = "medium" ∧
    SeverityFromCVSS (3999/1000) = "low" ∧
    SeverityFromCVSS (1/1000) = "low" ∧
    SeverityFromCVSS 0 = "info" ∧
    SeverityFromCVSS (-3) = "info" :=
  ⟨(severityBands s).1, (severityBands s).2.1, (severityBands s).2.2.1,
   (severityBands s).2.2.2.1, (severityBands s).2.2.2.2,
   (severityBands 9).1.mpr (by norm_num),
   (severityBands (8999/1000)).2.1.mpr (by norm_num),
   (severityBands 7).2.1.mpr (by norm_num),
   (severityBands (6999/1000)).2.2.1.mpr (by norm_num),
   (severityBands 4).2.2.1.mpr (by norm_num),
   (severityBands (3999/1000)).2.2.2.1.mpr (by norm_num),
   (severityBands (1/1000)).2.2.2.1.mpr (by norm_num),
   (severityBands 0).2.2.2.2.mpr (by norm_num),
   (severityBands (-3)).2.2.2.2.mpr (by norm_num)⟩

/-- The scanner vocabulary recognized by `NormalizeSeverity`. -/
def sevKeywords : List String :=
  ["CRITICAL", "HIGH", "ERROR", "MEDIUM", "MODERATE", "WARNING", "LOW",
   "INFO", "INFORMATIONAL", "NOTE"]

/-- The five canonical severity levels. -/
def canonicalSeverities : List String := ["critical", "high", "medium", "low", "info"]

/-- Claim C8: `NormalizeSeverity` is total: after trimming and uppercasing
(Go's Unicode simple case mapping, under which dotless i uppercases into
ASCII, as the "crıtıcal" example checks), each recognized keyword maps to
its canonical level, and every other string (the empty string included)
maps to info. -/
theorem c8_normalize_severity (s : String) :
    NormalizeSeverity s ∈ canonicalSeverities ∧
    (goToUpper (goTrimSpace s) = "CRITICAL" → NormalizeSeverity s = "critical") ∧
    (goToUpper (goTrimSpace s) = "HIGH" ∨ goToUpper (goTrimSpace s) = "ERROR" →
      NormalizeSeverity s = "high") ∧
    (goToUpper (goTrimSpace s) = "MEDIUM" ∨ goToUpper (goTrimSpace s) = "MODERATE" ∨
      goToUpper (goTrimSpace s) = "WARNING" → NormalizeSeverity s = "medium") ∧
    (goToUpper (goTrimSpace s) = "LOW" → NormalizeSeverity s = "low") ∧
    (goToUpper (goTrimSpace s) = "INFO" ∨ goToUpper (goTrimSpace s) = "INFORMATIONAL" ∨
      goToUpper (goTrimSpace s) = "NOTE" → NormalizeSeverity s = "info") ∧
    (goToUpper (goTrimSpace s) ∉ sevKeywords → NormalizeSeverity s = "info") ∧
    NormalizeSeverity "Warning" = "medium" ∧
    NormalizeSeverity "" = "info" ∧
    NormalizeSeverity "CRITICAL" = "critical" ∧
    NormalizeSeverity " eRRor\t" = "high" ∧
    NormalizeSeverity "Moderate" = "medium" ∧
    NormalizeSeverity "low" = "low" ∧
    NormalizeSeverity "Note" = "info" ∧
    NormalizeSeverity "not-a-level" = "info" ∧
    NormalizeSeverity "crıtıcal" = "critical" := by
  refine ⟨?_, ?_, ?_, ?_, ?_, ?_, ?_, by decide, by decide, by decide, by decide,
    by decide, by decide, by decide, by decide, by decide⟩
  · simp only [NormalizeSeverity]
    split_ifs <;> decide
  · intro h; simp only [NormalizeSeverity]; rw [h]; decide
  · rintro (h | h) <;> (simp only [NormalizeSeverity]; rw [h]; decide)
  · rintro (h | h | h) <;> (simp only [NormalizeSeverity]; rw [h]; decide)
  · intro h; simp only [NormalizeSeverity]; rw [h]; decide
  · rintro (h | h | h) <;> (simp only [NormalizeSeverity]; rw [h]; decide)
  · intro h
    have h1 : goToUpper (goTrimSpace s) ≠ "CRITICAL" := fun e => h (by rw [e]; decide)
    have h2 : ¬(goToUpper (goTrimSpace s) = "HIGH" ∨
        goToUpper (goTrimSpace s) = "ERROR") := by
      rintro (e | e) <;> exact h (by rw [e]; decide)
    have h3 : ¬(goToUpper (goTrimSpace s) = "MEDIUM" ∨
        goToUpper (goTrimSpace s) = "MODERATE" ∨
        goToUpper (goTrimSpace s) = "WARNING") := by
      rintro (e | e | e) <;> exact h (by rw [e]; decide)
    have h4 : goToUpper (goTrimSpace s) ≠ "LOW" := fun e => h (by rw [e]; decide)
    have h5 : ¬(goToUpper (goTrimSpace s) = "INFO" ∨
        goToUpper (goTrimSpace s) = "INFORMATIONAL" ∨
        goToUpper (goTrimSpace s) = "NOTE") := by
      rintro (e | e | e) <;> exact h (by rw [e]; decide)
    simp only [NormalizeSeverity]
    rw [if_neg h1, if_neg h2, if_neg h3, if_neg h4, if_neg h5]

/-! ### Package-type detection claims -/

/-- Claim C9: `DetectPackageType` is total on file names, returning one of the
eight canonical ecosystem identifiers or the empty (unknown) result, by
case-insensitive substring matching; the code's identifier for the Go modules
ecosystem is the string "gomod". -/
theorem c9_detect_package_type (filename : String) :
    DetectPackageType filename ∈
      [PackageTypeMaven, PackageTypeNPM, PackageTypePyPI, PackageTypeGo,
       PackageTypeCargo, PackageTypeNuGet, PackageTypeGem, PackageTypeComposer,
       ""] ∧
    DetectPackageType "backend/go.sum" = PackageTypeGo ∧
    PackageTypeGo = "gomod" ∧
    DetectPackageType "README.md" = "" ∧
    DetectPackageType "pom.xml" = PackageTypeMaven ∧
    DetectPackageType "frontend/package-lock.json" = PackageTypeNPM ∧
    DetectPackageType "Requirements.TXT" = PackageTypePyPI ∧
    DetectPackageType "rust/Cargo.toml" = PackageTypeCargo ∧
    DetectPackageType "App.csproj" = PackageTypeNuGet ∧
    DetectPackageType "Gemfile" = PackageTypeGem ∧
    DetectPackageType "composer.lock" = PackageTypeComposer := by
  refine ⟨?_, by decide, rfl, by decide, by decide, by decide, by decide, by decide,
    by decide, by decide, by decide⟩
  simp only [DetectPackageType]
  split_ifs <;> decide

/-! ### Stream capture claims -/

/-- A successful `ReadBytes` call returns a prefix (delimiter included) plus
the strictly shorter remainder. -/
theorem splitFirst_some (d : List Nat) :
    ∀ l r, splitFirst d = (l, some r) → l ++ r = d ∧ r.length < d.length := by
  induction d with
  | nil => intro l r h; simp [splitFirst] at h
  | cons b bs ih =>
    intro l r h
    by_cases hb : (b == 10) = true
    · simp only [splitFirst, if_pos hb, Prod.mk.injEq] at h
      obtain ⟨h1, h2⟩ := h
      subst h1
      injection h2 with h2
      subst h2
      exact ⟨rfl, by simp⟩
    · simp only [splitFirst, if_neg hb, Prod.mk.injEq] at h
      obtain ⟨h1, h2⟩ := h
      subst h1
      rcases hp : splitFirst bs with ⟨p1, p2⟩
      rw [hp] at h2
      subst h2
      obtain ⟨ha, hl⟩ := ih p1 r hp
      refine ⟨?_, ?_⟩
      · show (b :: p1) ++ r = b :: bs
        rw [List.cons_append, ha]
      · simp only [List.length_cons]
        omega

/-- A `ReadBytes` call hitting the terminal condition returns everything left. -/
theorem splitFirst_none (d : List Nat) :
    ∀ l, splitFirst d = (l, none) → l = d := by
  induction d with
  | nil => intro l h; simp only [splitFirst, Prod.mk.injEq] at h; exact h.1.symm
  | cons b bs ih =>
    intro l h
    by_cases hb : (b == 10) = true
    · simp only [splitFirst, if_pos hb, Prod.mk.injEq] at h
      exact absurd h.2 (by simp)
    · simp only [splitFirst, if_neg hb, Prod.mk.injEq] at h
      obtain ⟨h1, h2⟩ := h
      rcases hp : splitFirst bs with ⟨p1, p2⟩
      rw [hp] at h1 h2
      dsimp only at h1 h2
      subst h2
      subst h1
      rw [ih p1 hp]

/-- The nonempty-guarded append of the capture loop is a plain append. -/
theorem appendIf (buf l : List Nat) :
    (if l.isEmpty then buf else buf ++ l) = buf ++ l := by
  cases l <;> simp

/-- With enough fuel, the capture loop returns the buffer plus all bytes. -/
theorem captureLoopF_eq : ∀ (fuel : Nat) (buf d : List Nat), d.length < fuel →
    captureLoopF fuel buf d = buf ++ d := by
  intro fuel
  induction fuel with
  | zero => intro buf d h; exact absurd h (Nat.not_lt_zero _)
  | succ n ih =>
    intro buf d h
    rw [captureLoopF]
    split
    · next line rest heq =>
      obtain ⟨ha, hl⟩ := splitFirst_some d line rest heq
      rw [appendIf, ih (buf ++ line) rest (by omega), List.append_assoc, ha]
    · next line heq =>
      rw [appendIf, splitFirst_none d line heq]

/-- `captureOutput` returns exactly the bytes the child delivered, in both
verbose and quiet mode, terminator or not on the final line, and whether the
stream ended in end-of-stream or an I/O error. -/
theorem captureOutput_eq (data : List Nat) (stream : Bool) (pfx : String) :
    captureOutput data stream pfx = data := by
  have h := captureLoopF_eq (data.length + 1) [] data (by omega)
  simpa [captureOutput] using h

/-- `ScanLines` on a buffer starting with a newline-free line consumes
exactly that line. -/
theorem splitBefore_of_append (l R : List Nat) (h : 10 ∉ l) :
    splitBefore (l ++ 10 :: R) = (l, some R) := by
  induction l with
  | nil => simp [splitBefore]
  | cons c t ih =>
    have hc : (c == 10) = false := by
      simp only [beq_eq_false_iff_ne, ne_eq]
      intro e
      exact h (by rw [e]; exact List.mem_cons_self _ _)
    have ht : 10 ∉ t := fun m => h (List.mem_cons_of_mem _ m)
    show splitBefore (c :: (t ++ 10 :: R)) = (c :: t, some R)
    rw [splitBefore, if_neg (by simp [hc])]
    rw [ih ht]

/-- The token returned by one `ScanLines` step contains no newline. -/
theorem splitBefore_fst_no_nl (d : List Nat) : 10 ∉ (splitBefore d).1 := by
  induction d with
  | nil => simp [splitBefore]
  | cons b bs ih =>
    by_cases hb : (b == 10) = true
    · simp [splitBefore, hb]
    · have hbne : b ≠ 10 := by simpa using hb
      simp only [splitBefore, if_neg hb, List.mem_cons]
      rintro (e | m)
      · exact hbne e.symm
      · exact ih m

/-- Dropping a trailing carriage return introduces no newline. -/
theorem dropCR_no_nl (l : List Nat) (h : 10 ∉ l) : 10 ∉ dropCR l := by
  unfold dropCR
  split_ifs
  · exact fun m => h ((List.dropLast_sublist l).subset m)
  · exact h

/-- Every token produced by the line scanner is newline-free. -/
theorem scanLinesF_no_nl : ∀ (fuel : Nat) (d l : List Nat),
    l ∈ scanLinesF fuel d → 10 ∉ l := by
  intro fuel
  induction fuel with
  | zero => intro d l h; simp [scanLinesF] at h
  | succ n ih =>
    intro d l h
    rw [scanLinesF] at h
    by_cases he : d.isEmpty
    · rw [if_pos he] at h; simp at h
    · rw [if_neg he] at h
      rcases hp : splitBefore d with ⟨line, rest?⟩
      rw [hp] at h
      cases rest? with
      | some rest =>
        dsimp only at h
        by_cases hlen : line.length < maxScanTokenSize
        · rw [if_pos hlen] at h
          simp only [List.mem_cons] at h
          rcases h with h | h
          · subst h
            exact dropCR_no_nl line
              (by have := splitBefore_fst_no_nl d; rwa [hp] at this)
          · exact ih rest l h
        · rw [if_neg hlen] at h
          simp at h
      | none =>
        dsimp only at h
        by_cases hlen : line.length < maxScanTokenSize
        · rw [if_pos hlen] at h
          simp only [List.mem_singleton] at h
          subst h
          exact dropCR_no_nl line
            (by have := splitBefore_fst_no_nl d; rwa [hp] at this)
        · rw [if_neg hlen] at h
          simp at h

/-- Join lines back into a newline-terminated buffer. -/
def joinNL : List (List Nat) → List Nat
  | [] => []
  | l :: t => l ++ 10 :: joinNL t

/-- The accumulation loop of `streamWithHandler` produces the joined buffer. -/
theorem foldl_append_joinNL : ∀ (ls : List (List Nat)) (acc : List Nat),
    ls.foldl (fun buf line => buf ++ line ++ [10]) acc = acc ++ joinNL ls := by
  intro ls
  induction ls with
  | nil => intro acc; simp [joinNL]
  | cons l t ih =>
    intro acc
    rw [List.foldl_cons, ih, joinNL]
    simp

/-- A joined buffer has at least as many bytes as it has lines. -/
theorem joinNL_length_ge (ls : List (List Nat)) : ls.length ≤ (joinNL ls).length := by
  induction ls with
  | nil => simp [joinNL]
  | cons l t ih => simp [joinNL]; omega

/-- Parsing a joined buffer of newline-free lines recovers exactly those lines. -/
theorem linesOfBufferF_joinNL : ∀ (ls : List (List Nat)) (fuel : Nat),
    (∀ l ∈ ls, 10 ∉ l) → ls.length ≤ fuel →
    linesOfBufferF fuel (joinNL ls) = ls := by
  intro ls
  induction ls with
  | nil =>
    intro fuel hnl hf
    cases fuel <;> simp [linesOfBufferF, joinNL]
  | cons l t ih =>
    intro fuel hnl hf
    cases fuel with
    | zero => simp at hf
    | succ n =>
      have hl : 10 ∉ l := hnl l (List.mem_cons_self _ _)
      have hne : ¬(joinNL (l :: t)).isEmpty = true := by
        rw [joinNL]
        cases l <;> simp
      rw [linesOfBufferF, if_neg hne]
      have hsp : splitBefore (joinNL (l :: t)) = (l, some (joinNL t)) := by
        rw [joinNL]
        exact splitBefore_of_append l (joinNL t) hl
      rw [hsp]
      show l :: linesOfBufferF n (joinNL t) = l :: t
      rw [ih n (fun x hx => hnl x (List.mem_cons_of_mem _ hx)) (by simp at hf; omega)]

/-- The bytes returned by `streamWithHandler` hold exactly the lines the
scanner emitted, in order. -/
theorem streamWithHandler_lines (data : List Nat) :
    linesOfBuffer (streamWithHandler data) = scanLines data := by
  have h1 : streamWithHandler data = joinNL (scanLines data) := by
    have h := foldl_append_joinNL (scanLines data) []
    simpa [streamWithHandler] using h
  have hnl : ∀ l ∈ scanLines data, 10 ∉ l :=
    fun l hm => scanLinesF_no_nl (data.length + 1) data l hm
  rw [linesOfBuffer, h1]
  exact linesOfBufferF_joinNL (scanLines data) ((joinNL (scanLines data)).length + 1)
    hnl (by have := joinNL_length_ge (scanLines data); omega)

/-- When every line of the stream is below the scanner cap, the emitted
tokens are exactly the written lines, carriage returns stripped. -/
theorem scanLinesF_of_short : ∀ (fuel : Nat) (d : List Nat),
    (∀ l ∈ linesOfBufferF fuel d, l.length < maxScanTokenSize) →
    scanLinesF fuel d = (linesOfBufferF fuel d).map dropCR := by
  intro fuel
  induction fuel with
  | zero => intro d h; rfl
  | succ n ih =>
    intro d h
    by_cases he : d.isEmpty = true
    · rw [scanLinesF, if_pos he, linesOfBufferF, if_pos he]
      rfl
    · rcases hp : splitBefore d with ⟨line, rest?⟩
      cases rest? with
      | some rest =>
        have hL : linesOfBufferF (n + 1) d = line :: linesOfBufferF n rest := by
          rw [linesOfBufferF, if_neg he, hp]
        rw [hL] at h
        have hline : line.length < maxScanTokenSize :=
          h line (List.mem_cons_self _ _)
        have hS : scanLinesF (n + 1) d = dropCR line :: scanLinesF n rest := by
          rw [scanLinesF, if_neg he, hp]
          show (if line.length < maxScanTokenSize
              then dropCR line :: scanLinesF n rest else []) = _
          rw [if_pos hline]
        rw [hS, hL, List.map_cons,
          ih rest (fun l hl => h l (List.mem_cons_of_mem _ hl))]
      | none =>
        have hL : linesOfBufferF (n + 1) d = [line] := by
          rw [linesOfBufferF, if_neg he, hp]
        rw [hL] at h
        have hline : line.length < maxScanTokenSize :=
          h line (List.mem_cons_self _ _)
        have hS : scanLinesF (n + 1) d = [dropCR line] := by
          rw [scanLinesF, if_neg he, hp]
          show (if line.length < maxScanTokenSize then [dropCR line] else []) = _
          rw [if_pos hline]
        rw [hS, hL]
        rfl

/-- With every written line below the cap, the scanner emits all of them. -/
theorem scanLines_eq_written (data : List Nat)
    (h : ∀ l ∈ linesOfBuffer data, l.length < maxScanTokenSize) :
    scanLines data = (linesOfBuffer data).map dropCR :=
  scanLinesF_of_short (data.length + 1) data h

/-- A nonempty buffer of the append-then-line shape is not empty. -/
theorem append_cons_isEmpty_false (l : List Nat) (b : Nat) (r : List Nat) :
    (l ++ b :: r).isEmpty = false := by
  cases l <;> rfl

/-- One scanner step on a nonempty stream whose pending bytes split at the
first newline into `line` and `rest`. -/
theorem scanLinesF_cons_eq (d : List Nat) (hne : ¬d.isEmpty = true)
    (line rest : List Nat) (hsb : splitBefore d = (line, some rest)) (n : Nat) :
    scanLinesF (n + 1) d
    = (if line.length < maxScanTokenSize
      then dropCR line :: scanLinesF n rest else []) := by
  rw [scanLinesF, if_neg hne, hsb]

/-- A stream whose first line is exactly `MaxScanTokenSize` bytes of `a`,
followed by the short terminated line "b". -/
def tooLongLineInput : List Nat :=
  List.replicate maxScanTokenSize 97 ++ [10, 98, 10]

/-- Claim C4 counterexample: the child wrote two lines (one of 64 KiB, then
the short line "b"), buffered capture keeps every byte, but in streaming
mode the over-long first line trips `bufio.Scanner`'s token cap and the
returned buffer is empty — the short line "b" the child wrote is lost, so
streaming mode does not return every line on all inputs. -/
theorem c4_counterexample_long_line_lost :
    linesOfBuffer tooLongLineInput = [List.replicate maxScanTokenSize 97, [98]] ∧
    scanLines tooLongLineInput = [] ∧
    streamWithHandler tooLongLineInput = [] ∧
    captureOutput tooLongLineInput false "stdout" = tooLongLineInput := by
  have hnl : (10 : Nat) ∉ List.replicate maxScanTokenSize 97 := by
    simp [List.mem_replicate]
  have hsb : splitBefore tooLongLineInput
      = (List.replicate maxScanTokenSize 97, some [98, 10]) :=
    splitBefore_of_append _ _ hnl
  have hne : ¬tooLongLineInput.isEmpty = true := by
    have hf : tooLongLineInput.isEmpty = false :=
      append_cons_isEmpty_false (List.replicate maxScanTokenSize 97) 10 [98, 10]
    rw [hf]
    simp
  have hlen : ¬((List.replicate maxScanTokenSize 97).length < maxScanTokenSize) := by
    simp
  have hscan : scanLines tooLongLineInput = [] := by
    unfold scanLines
    rw [scanLinesF_cons_eq tooLongLineInput hne _ _ hsb tooLongLineInput.length,
      if_neg hlen]
  refine ⟨?_, hscan, ?_, captureOutput_eq _ _ _⟩
  · have hjoin : tooLongLineInput
        = joinNL [List.replicate maxScanTokenSize 97, [98]] :=
      congrArg (fun t => List.replicate maxScanTokenSize 97 ++ t)
        (rfl : ([10, 98, 10] : List Nat) = 10 :: joinNL [[98]])
    rw [hjoin]
    unfold linesOfBuffer
    refine linesOfBufferF_joinNL _ _ ?_ ?_
    · intro l hl
      simp only [List.mem_cons, List.not_mem_nil, or_false] at hl
      rcases hl with rfl | rfl
      · exact hnl
      · decide
    · have hge := joinNL_length_ge [List.replicate maxScanTokenSize 97, [98]]
      omega
  · unfold streamWithHandler
    rw [hscan]
    rfl

/-- Claim C4 (amended): buffered capture returns exactly the bytes the child
delivered — terminators and the unterminated final line included, an I/O
error treated as ordinary termination returning the partial buffer —
independent of the verbose flag. In streaming mode the returned buffer
parses back to exactly the lines the scanner emitted, and, provided every
line the child wrote is shorter than `bufio.MaxScanTokenSize` (64 KiB),
those are all the lines the child wrote, in that stream's original order
(carriage returns stripped as `ScanLines` does); a longer line stops the
scan with `ErrTooLong`, losing it and all subsequent output of that
stream. -/
theorem c4_capture_lossless_amended (data : List Nat) (verbose : Bool) (pfx : String) :
    captureOutput data verbose pfx = data ∧
    linesOfBuffer (streamWithHandler data) = scanLines data ∧
    ((∀ l ∈ linesOfBuffer data, l.length < maxScanTokenSize) →
      linesOfBuffer (streamWithHandler data) = (linesOfBuffer data).map dropCR) :=
  ⟨captureOutput_eq data verbose pfx, streamWithHandler_lines data,
   fun h => by rw [streamWithHandler_lines data, scanLines_eq_written data h]⟩

/-- Witness for the amended C4 theorem on a concrete two-line stream
("hi\n" then an unterminated "b"), discharging the short-lines
hypothesis. -/
theorem c4_capture_lossless_witness :
    linesOfBuffer (streamWithHandler [104, 105, 10, 98])
        = (linesOfBuffer [104, 105, 10, 98]).map dropCR :=
  (c4_capture_lossless_amended [104, 105, 10, 98] false "stdout").2.2 (by decide)

/-! ### Execution harness claims -/

/-- Handling the wait error never changes the duration (or the buffers). -/
theorem applyWaitErr_durationMs (base : ExecResult) (e : GoWaitErr) :
    (applyWaitErr base e).DurationMs = base.DurationMs := by
  cases e <;> rfl

/-- A configuration whose binary does not exist. -/
def startFailCfg : ExecConfig :=
  { Binary := "/usr/local/bin/missing-scanner", Args := ["scan"], WorkDir := "",
    Env := [], Timeout := 0, Verbose := false }

/-- The world in which starting that binary fails. -/
def startFailWorld : ExecWorld :=
  { stdoutPipeErr := none, stderrPipeErr := none,
    startErr := some "exec: executable file not found in PATH",
    stdoutBytes := [], stderrBytes := [], outcome := ChildOutcome.exited 0,
    elapsedMs := 0, inheritedEnv := [] }

/-- Claim C1 counterexample: when the process fails to start, `ExecuteScanner`
returns only an error — there is no result value at all, hence none carrying
`DurationMs`, contradicting "a result on all exit paths". -/
theorem c1_counterexample_start_failure_no_result :
    ExecuteScanner startFailCfg startFailWorld =
      Except.error "failed to start scanner: exec: executable file not found in PATH" :=
  rfl

/-- Claim C1 (amended): on every path on which both pipes are created and the
process starts — clean exit, non-zero exit, kill by timeout, or a wait
failure — `ExecuteScanner` returns a result whose `DurationMs` is the
measured elapsed time; on pipe-creation and start failure it returns an error
and no result. -/
theorem c1_duration_reported_when_started (cfg : ExecConfig) (w : ExecWorld)
    (h1 : w.stdoutPipeErr = none) (h2 : w.stderrPipeErr = none)
    (h3 : w.startErr = none) :
    (ExecuteScanner cfg w).toOption.map ExecResult.DurationMs = some w.elapsedMs := by
  unfold ExecuteScanner
  rw [h1, h2, h3]
  simp [Except.toOption, applyWaitErr_durationMs]

/-- A benign configuration for the witness. -/
def okCfg : ExecConfig :=
  { Binary := "trivy", Args := ["fs", "."], WorkDir := "", Env := [],
    Timeout := 0, Verbose := false }

/-- A world in which the scanner runs and exits cleanly after 7ms. -/
def okWorld : ExecWorld :=
  { stdoutPipeErr := none, stderrPipeErr := none, startErr := none,
    stdoutBytes := [111, 107, 10], stderrBytes := [],
    outcome := ChildOutcome.exited 0, elapsedMs := 7, inheritedEnv := [] }

/-- Witness for the amended C1 theorem at a concrete started invocation. -/
theorem c1_duration_witness :
    (ExecuteScanner okCfg okWorld).toOption.map ExecResult.DurationMs = some 7 :=
  c1_duration_reported_when_started okCfg okWorld rfl rfl rfl

/-- A configuration with a positive 100ms timeout. -/
def timeoutCfg : ExecConfig :=
  { Binary := "semgrep", Args := ["scan"], WorkDir := "", Env := [],
    Timeout := 100000000, Verbose := false }

/-- The world in which the child is killed because the deadline elapsed. -/
def timeoutWorld : ExecWorld :=
  { stdoutPipeErr := none, stderrPipeErr := none, startErr := none,
    stdoutBytes := [], stderrBytes := [], outcome := ChildOutcome.killedByDeadline,
    elapsedMs := 100, inheritedEnv := [] }

/-- Claim C2 counterexample: with a positive timeout whose deadline elapsed
(the context killed the child, so `Wait` returned the signal-kill
`*exec.ExitError`), the result's `Error` field is nil and `ExitCode` is the
fabricated -1 — the opposite of the claimed attribution. -/
theorem c2_counterexample_timeout_not_in_error_field :
    timeoutCfg.Timeout > 0 ∧
    (ExecuteScanner timeoutCfg timeoutWorld).toOption.map ExecResult.Error
        = some none ∧
    (ExecuteScanner timeoutCfg timeoutWorld).toOption.map ExecResult.ExitCode
        = some (-1) :=
  ⟨by decide, rfl, rfl⟩

/-- Claim C2 (amended): when the deadline elapses and the child is killed,
`Wait` yields an exit error with the signal-kill code -1, so the result
carries `ExitCode = -1` and a nil `Error` — the error channel is reserved for
invocation-start failures and non-exit-status wait failures; a process that
ran to completion with a non-zero exit carries that exit code and no
top-level error. -/
theorem c2_wait_error_attribution (cfg : ExecConfig) (w : ExecWorld)
    (h1 : w.stdoutPipeErr = none) (h2 : w.stderrPipeErr = none)
    (h3 : w.startErr = none) :
    (w.outcome = ChildOutcome.killedByDeadline →
      (ExecuteScanner cfg w).toOption.map ExecResult.ExitCode = some (-1) ∧
      (ExecuteScanner cfg w).toOption.map ExecResult.Error = some none) ∧
    (∀ c : Nat, w.outcome = ChildOutcome.exited (c + 1) →
      (ExecuteScanner cfg w).toOption.map ExecResult.ExitCode
          = some (Int.ofNat (c + 1)) ∧
      (ExecuteScanner cfg w).toOption.map ExecResult.Error = some none) := by
  constructor
  · intro ho
    unfold ExecuteScanner
    rw [h1, h2, h3, ho]
    exact ⟨rfl, rfl⟩
  · intro c ho
    unfold ExecuteScanner
    rw [h1, h2, h3, ho]
    exact ⟨rfl, rfl⟩

/-- A world in which the scanner ran to completion with exit status 2. -/
def exit2World : ExecWorld :=
  { stdoutPipeErr := none, stderrPipeErr := none, startErr := none,
    stdoutBytes := [], stderrBytes := [], outcome := ChildOutcome.exited 2,
    elapsedMs := 40, inheritedEnv := [] }

/-- Witness for the amended C2 theorem: the timeout-kill world and a non-zero
clean exit. -/
theorem c2_wait_error_attribution_witness :
    ((ExecuteScanner timeoutCfg timeoutWorld).toOption.map ExecResult.ExitCode
        = some (-1) ∧
     (ExecuteScanner timeoutCfg timeoutWorld).toOption.map ExecResult.Error
        = some none) ∧
    ((ExecuteScanner timeoutCfg exit2World).toOption.map ExecResult.ExitCode
        = some 2 ∧
     (ExecuteScanner timeoutCfg exit2World).toOption.map ExecResult.Error
        = some none) :=
  ⟨(c2_wait_error_attribution timeoutCfg timeoutWorld rfl rfl rfl).1 rfl,
   (c2_wait_error_attribution timeoutCfg exit2World rfl rfl rfl).2 1 rfl⟩

/-- A configuration carrying a working directory and an environment override. -/
def envCfg : ExecConfig :=
  { Binary := "gitleaks", Args := ["detect"], WorkDir := "/work/repo",
    Env := [("SCANNER_OPT", "1")], Timeout := 0, Verbose := false }

/-- A world with a nonempty inherited environment. -/
def envWorld : ExecWorld :=
  { stdoutPipeErr := none, stderrPipeErr := none, startErr := none,
    stdoutBytes := [], stderrBytes := [], outcome := ChildOutcome.exited 0,
    elapsedMs := 3, inheritedEnv := [("PATH", "/usr/bin"), ("HOME", "/root")] }

/-- Claim C6 (code bug): both runners apply the caller-supplied working
directory, and `ExecuteScanner` merges the environment overrides onto the
inherited environment, but `StreamScanner` never sets the command's
environment — the override mapping is silently dropped in streaming mode, as
the concrete evaluation at `envCfg` shows. -/
theorem c6_stream_scanner_drops_env (cfg : ExecConfig) (w : ExecWorld) :
    (buildStreamCmd cfg).Env = none ∧
    (buildStreamCmd cfg).Dir = cfg.WorkDir ∧
    (buildScannerCmd cfg w).Dir = cfg.WorkDir ∧
    (buildScannerCmd cfg w).Env
        = (if cfg.Env.length > 0 then some (w.inheritedEnv ++ cfg.Env) else none) ∧
    (buildScannerCmd envCfg envWorld).Env
        = some [("PATH", "/usr/bin"), ("HOME", "/root"), ("SCANNER_OPT", "1")] ∧
    (buildStreamCmd envCfg).Env = none ∧
    envCfg.Env = [("SCANNER_OPT", "1")] := by
  refine ⟨?_, ?_, ?_, ?_, by decide, by decide, rfl⟩
  · unfold buildStreamCmd
    split_ifs <;> rfl
  · unfold buildStreamCmd
    split_ifs with h
    · rfl
    · exact (not_ne_iff.mp h).symm
  · unfold buildScannerCmd
    split_ifs <;> simp_all
  · unfold buildScannerCmd
    split_ifs <;> rfl

/-- Witness for the C8 theorem at concrete labels, discharging the keyword
hypothesis and the unrecognized-label hypothesis. -/
theorem c8_normalize_severity_witness :
    NormalizeSeverity "  CriTiCal " = "critical" ∧
    NormalizeSeverity "mystery" = "info" :=
  ⟨(c8_normalize_severity "  CriTiCal ").2.1 (by decide),
   (c8_normalize_severity "mystery").2.2.2.2.2.2.1 (by decide)⟩
